import Mathlib

/-!
Verification development for the todo_list_project repository
(src/app.py and src/todo_stack.py).

The development contains:

* `SHA256` — an executable embedding of the SHA-256 digest, used by
  `hash_password` in src/app.py (`hashlib.sha256(plain.encode("utf-8")).hexdigest()`).
  Machine words are `Nat` values kept below `2 ^ 32` by explicit `% 4294967296`.
* `App` — the `ToDoStack` class of src/app.py (tasks, undo/redo snapshot
  stacks) as a value-level state machine, plus the `signup` / `login` /
  `logout` functions operating on the session state (`users` dict and
  `current_user`).
* `Simple` — the smaller `ToDoStack` variant of src/todo_stack.py.
* `Heap` — a store-based model of the same `ToDoStack` in which task
  records live in an explicit heap and lists hold references, used to
  state the deep-copy (non-aliasing) property of snapshots that the
  value-level model cannot express.

Python stacks (`list.append` / `list.pop`) are modelled as Lean lists with
the most recent element at the head: `append x` becomes `x :: s` and
`pop` splits `top :: rest`.
-/

namespace SHA256

/-- Modulus for 32-bit words: `2 ^ 32`. -/
def wordMod : Nat := 4294967296

/-- Right rotation of a 32-bit word (a `Nat` below `2 ^ 32`) by `n` bits. -/
def rotr (n x : Nat) : Nat := ((x >>> n) ||| (x <<< (32 - n))) % wordMod

/-- Bitwise complement of a 32-bit word. -/
def wnot (x : Nat) : Nat := x ^^^ 4294967295

/-- SHA-256 choice function. -/
def ch (x y z : Nat) : Nat := (x &&& y) ^^^ (wnot x &&& z)

/-- SHA-256 majority function. -/
def maj (x y z : Nat) : Nat := (x &&& y) ^^^ (x &&& z) ^^^ (y &&& z)

/-- Upper-case sigma-0 compression function. -/
def bigSigma0 (x : Nat) : Nat := rotr 2 x ^^^ rotr 13 x ^^^ rotr 22 x

/-- Upper-case sigma-1 compression function. -/
def bigSigma1 (x : Nat) : Nat := rotr 6 x ^^^ rotr 11 x ^^^ rotr 25 x

/-- Lower-case sigma-0 message-schedule function. -/
def smallSigma0 (x : Nat) : Nat := rotr 7 x ^^^ rotr 18 x ^^^ (x >>> 3)

/-- Lower-case sigma-1 message-schedule function. -/
def smallSigma1 (x : Nat) : Nat := rotr 17 x ^^^ rotr 19 x ^^^ (x >>> 10)

/-- The 64 SHA-256 round constants (fractional parts of cube roots of the
first 64 primes, as 32-bit words). -/
def roundK : List Nat :=
  [1116352408, 1899447441, 3049323471, 3921009573, 961987163, 1508970993,
   2453635748, 2870763221, 3624381080, 310598401, 607225278, 1426881987,
   1925078388, 2162078206, 2614888103, 3248222580, 3835390401, 4022224774,
   264347078, 604807628, 770255983, 1249150122, 1555081692, 1996064986,
   2554220882, 2821834349, 2952996808, 3210313671, 3336571891, 3584528711,
   113926993, 338241895, 666307205, 773529912, 1294757372, 1396182291,
   1695183700, 1986661051, 2177026350, 2456956037, 2730485921, 2820302411,
   3259730800, 3345764771, 3516065817, 3600352804, 4094571909, 275423344,
   430227734, 506948616, 659060556, 883997877, 958139571, 1322822218,
   1537002063, 1747873779, 1955562222, 2024104815, 2227730452, 2361852424,
   2428436474, 2756734187, 3204031479, 3329325298]

/-- The initial hash value (fractional parts of square roots of the first
8 primes, as 32-bit words). -/
def initH : List Nat :=
  [1779033703, 3144134277, 1013904242, 2773480762, 1359893119, 2600822924,
   528734635, 1541459225]

/-- Extend a 16-word message block: each step appends one scheduled word,
computed from the words 2, 7, 15 and 16 positions back. `fuel` counts the
words still to append (48 for a full block). -/
def extendW (ws : List Nat) : Nat → List Nat
  | 0 => ws
  | fuel + 1 =>
    let t := ws.length
    let w := (ws.getD (t - 16) 0 + smallSigma0 (ws.getD (t - 15) 0) +
              ws.getD (t - 7) 0 + smallSigma1 (ws.getD (t - 2) 0)) % wordMod
    extendW (ws ++ [w]) fuel

/-- One compression round: `regs` is the 8-register working state
`[a, b, c, d, e, f, g, h]`, `kw` a pair of round constant and scheduled word. -/
def round (regs : List Nat) (kw : Nat × Nat) : List Nat :=
  match regs with
  | [a, b, c, d, e, f, g, h] =>
    let t1 := (h + bigSigma1 e + ch e f g + kw.1 + kw.2) % wordMod
    let t2 := (bigSigma0 a + maj a b c) % wordMod
    [(t1 + t2) % wordMod, a, b, c, (d + t1) % wordMod, e, f, g]
  | other => other

/-- Compress one 16-word block into the running 8-word hash state. -/
def compress (hs : List Nat) (block : List Nat) : List Nat :=
  let ws := extendW block 48
  let regs := (roundK.zip ws).foldl round hs
  (hs.zip regs).map (fun p => (p.1 + p.2) % wordMod)

/-- Big-endian byte decomposition: `natToBytesBE k n` is the `k`-byte
big-endian representation of `n`. -/
def natToBytesBE : Nat → Nat → List Nat
  | 0, _ => []
  | k + 1, n => natToBytesBE k (n / 256) ++ [n % 256]

/-- SHA-256 message padding: append the byte `0x80`, then zero bytes until
the length is 56 mod 64, then the 8-byte big-endian bit length. -/
def pad (msg : List Nat) : List Nat :=
  msg ++ [128] ++ List.replicate ((119 - msg.length % 64) % 64) 0 ++
    natToBytesBE 8 (8 * msg.length)

/-- Group a padded byte string into big-endian 32-bit words, 4 bytes per
word. `fuel` bounds the recursion (the byte count suffices). -/
def bytesToWords : Nat → List Nat → List Nat
  | 0, _ => []
  | _, [] => []
  | fuel + 1, bs =>
    (bs.getD 0 0 * 16777216 + bs.getD 1 0 * 65536 + bs.getD 2 0 * 256 +
      bs.getD 3 0) :: bytesToWords fuel (bs.drop 4)

/-- Fold the compression function over successive 16-word blocks. `fuel`
bounds the recursion (the word count suffices). -/
def processBlocks : Nat → List Nat → List Nat → List Nat
  | 0, hs, _ => hs
  | _, hs, [] => hs
  | fuel + 1, hs, ws => processBlocks fuel (compress hs (ws.take 16)) (ws.drop 16)

/-- Lower-case hexadecimal digit for a value below 16. -/
def hexDigit (n : Nat) : Char :=
  if n < 10 then Char.ofNat (48 + n) else Char.ofNat (87 + n)

/-- The 8 hexadecimal characters of a 32-bit word, most significant first. -/
def wordToHex (w : Nat) : List Char :=
  [hexDigit (w / 268435456 % 16), hexDigit (w / 16777216 % 16),
   hexDigit (w / 1048576 % 16), hexDigit (w / 65536 % 16),
   hexDigit (w / 4096 % 16), hexDigit (w / 256 % 16),
   hexDigit (w / 16 % 16), hexDigit (w % 16)]

/-- SHA-256 of a byte string, as the usual 64-character lower-case
hexadecimal digest. -/
def sha256hex (msg : List Nat) : String :=
  let padded := pad msg
  let ws := bytesToWords padded.length padded
  let hs := processBlocks ws.length initH ws
  String.mk (hs.foldr (fun w acc => wordToHex w ++ acc) [])

/-- UTF-8 encoding of a single character (code point to 1 to 4 bytes). -/
def utf8Bytes (c : Char) : List Nat :=
  let v := c.toNat
  if v < 128 then [v]
  else if v < 2048 then [192 + v / 64, 128 + v % 64]
  else if v < 65536 then [224 + v / 4096, 128 + v / 64 % 64, 128 + v % 64]
  else [240 + v / 262144, 128 + v / 4096 % 64, 128 + v / 64 % 64, 128 + v % 64]

/-- UTF-8 encoding of a string, the model of Python `s.encode("utf-8")`. -/
def encodeUTF8 (s : String) : List Nat :=
  s.data.foldr (fun c acc => utf8Bytes c ++ acc) []

end SHA256

/-- Model of `hash_password` in src/app.py:
`hashlib.sha256(plain.encode("utf-8")).hexdigest()`. -/
def hash_password (plain : String) : String :=
  SHA256.sha256hex (SHA256.encodeUTF8 plain)

namespace App

/-- A task as built by `ToDoStack.add_task` in src/app.py: the dict
`{"text": text, "deadline": deadline}`. The `datetime | None` deadline is
never inspected by the class, so its value is modelled as an opaque
timestamp. -/
structure Task where
  text : String
  deadline : Option Nat
deriving DecidableEq

/-- The `ToDoStack` class state of src/app.py: the live task list and the
two snapshot stacks. Stack top is at the head of the Lean list. -/
structure ToDoStack where
  tasks : List Task
  undo_stack : List (List Task)
  redo_stack : List (List Task)
deriving DecidableEq

/-- The `__init__` state: all three lists empty. -/
def ToDoStack.init : ToDoStack := ⟨[], [], []⟩

/-- Method `_snapshot_for_undo`: push a copy of the current task list onto
the undo stack (`deepcopy` is the identity on immutable Lean values; the
aliasing content of `deepcopy` is modelled in the `Heap` namespace). -/
def ToDoStack.snapshot_for_undo (s : ToDoStack) : ToDoStack :=
  { s with undo_stack := s.tasks :: s.undo_stack }

/-- Method `add_task(text, deadline)`: early return when `not text`
(the empty string is the only falsy `str`), else snapshot, append the new
task dict, and clear the redo stack. -/
def ToDoStack.add_task (s : ToDoStack) (text : String) (deadline : Option Nat) :
    ToDoStack :=
  if text = "" then s
  else
    let s1 := s.snapshot_for_undo
    { s1 with tasks := s1.tasks ++ [⟨text, deadline⟩], redo_stack := [] }

/-- Method `remove_task(index)`: early return when `index < 0 or
index >= len(self.tasks)`, else snapshot, `self.tasks.pop(index)`, and
clear the redo stack. The Python `int` index is modelled as `Int`. -/
def ToDoStack.remove_task (s : ToDoStack) (index : Int) : ToDoStack :=
  if index < 0 ∨ (s.tasks.length : Int) ≤ index then s
  else
    let s1 := s.snapshot_for_undo
    { s1 with tasks := s1.tasks.eraseIdx index.toNat, redo_stack := [] }

/-- Method `clear()`: early return when the task list is empty, else
snapshot, replace the list with `[]`, and clear the redo stack. -/
def ToDoStack.clear (s : ToDoStack) : ToDoStack :=
  if s.tasks = [] then s
  else
    let s1 := s.snapshot_for_undo
    { s1 with tasks := [], redo_stack := [] }

/-- Method `undo()`: early return when the undo stack is empty, else push
a copy of the current list onto the redo stack and pop the undo stack into
the current list. -/
def ToDoStack.undo (s : ToDoStack) : ToDoStack :=
  match s.undo_stack with
  | [] => s
  | top :: rest =>
    { tasks := top, undo_stack := rest, redo_stack := s.tasks :: s.redo_stack }

/-- Method `redo()`: early return when the redo stack is empty, else push
a copy of the current list onto the undo stack and pop the redo stack into
the current list. -/
def ToDoStack.redo (s : ToDoStack) : ToDoStack :=
  match s.redo_stack with
  | [] => s
  | top :: rest =>
    { tasks := top, undo_stack := s.tasks :: s.undo_stack, redo_stack := rest }

/-- Result classification of `signup` in src/app.py: the two warning
branches return `False`, the third branch stores the digest and returns
`True`. -/
inductive SignupResult
  | validationError
  | duplicateUserError
  | ok
deriving DecidableEq

/-- Result classification of `login` in src/app.py: the two error branches
return `False`, the third branch sets the session user and returns `True`. -/
inductive LoginResult
  | unknownUserError
  | invalidCredentialsError
  | ok
deriving DecidableEq

/-- The authentication part of `st.session_state`: the `users` dict
(username to password hash, modelled as an association list queried with
`List.lookup`) and `current_user`. -/
structure SessionState where
  users : List (String × String)
  current_user : Option String
deriving DecidableEq

/-- The initial session state: `users = {}`, `current_user = None`. -/
def SessionState.init : SessionState := ⟨[], none⟩

/-- Function `signup(username, password)` of src/app.py: warns and returns
`False` when `not username or not password`, warns and returns `False`
when `username in st.session_state.users`, else stores
`hash_password(password)` under `username` and returns `True`. -/
def signup (st : SessionState) (username password : String) :
    SignupResult × SessionState :=
  if username = "" ∨ password = "" then (.validationError, st)
  else if (st.users.lookup username).isSome then (.duplicateUserError, st)
  else (.ok, { st with users := (username, hash_password password) :: st.users })

/-- Function `login(username, password)` of src/app.py: errors and returns
`False` when the username is not in the `users` dict, errors and returns
`False` when the stored digest differs from `hash_password(password)`,
else sets `current_user` to the username and returns `True`. -/
def login (st : SessionState) (username password : String) :
    LoginResult × SessionState :=
  match st.users.lookup username with
  | none => (.unknownUserError, st)
  | some digest =>
    if digest ≠ hash_password password then (.invalidCredentialsError, st)
    else (.ok, { st with current_user := some username })

/-- Function `logout()` of src/app.py: sets `current_user` to `None`. -/
def logout (st : SessionState) : SessionState := { st with current_user := none }

end App

namespace Simple

/-- The `ToDoStack` class of src/todo_stack.py. Tasks there are untyped
values, so the state is parametric in the task type. Stack top is at the
head of the Lean list. -/
structure ToDoStack (α : Type) where
  tasks : List α
  undo_stack : List (List α)
  redo_stack : List (List α)
deriving DecidableEq

/-- The `__init__` state of src/todo_stack.py: all three lists empty. -/
def ToDoStack.init {α : Type} : ToDoStack α := ⟨[], [], []⟩

/-- Method `add_task(task)` of src/todo_stack.py: unconditionally push a
copy of the current list onto the undo stack, append the task, and clear
the redo stack (this variant has no emptiness guard at all). -/
def ToDoStack.add_task {α : Type} (s : ToDoStack α) (task : α) : ToDoStack α :=
  { tasks := s.tasks ++ [task],
    undo_stack := s.tasks :: s.undo_stack,
    redo_stack := [] }

/-- Method `undo()` of src/todo_stack.py: same two-stack move as the
src/app.py variant. -/
def ToDoStack.undo {α : Type} (s : ToDoStack α) : ToDoStack α :=
  match s.undo_stack with
  | [] => s
  | top :: rest =>
    { tasks := top, undo_stack := rest, redo_stack := s.tasks :: s.redo_stack }

/-- Method `redo()` of src/todo_stack.py: same two-stack move as the
src/app.py variant. -/
def ToDoStack.redo {α : Type} (s : ToDoStack α) : ToDoStack α :=
  match s.redo_stack with
  | [] => s
  | top :: rest =>
    { tasks := top, undo_stack := s.tasks :: s.undo_stack, redo_stack := rest }

end Simple

namespace Heap

/-- Placeholder record used as the out-of-range default of heap reads. -/
def defaultTask : App.Task := ⟨"", none⟩

/-- Store-based model of the src/app.py `ToDoStack`, for the aliasing
content of `deepcopy`: task dicts live in an explicit heap (`store`, a
list of records addressed by index) and the live list and every snapshot
hold references into it. Mutating a task dict in place is a store write
visible through every alias of that reference. -/
structure ToDoHeap where
  store : List App.Task
  tasks : List Nat
  undo_stack : List (List Nat)
  redo_stack : List (List Nat)
deriving DecidableEq

/-- The `__init__` state: empty heap, all lists empty. -/
def ToDoHeap.init : ToDoHeap := ⟨[], [], [], []⟩

/-- Python `deepcopy(tasks)`: allocate one fresh cell per task holding a
copy of its current value, and return the extended store together with
the list of fresh references. -/
def deepcopy (store : List App.Task) (refs : List Nat) :
    List App.Task × List Nat :=
  (store ++ refs.map (fun r => store.getD r defaultTask),
   List.range' store.length refs.length)

/-- Method `_snapshot_for_undo`: push the deep copy of the live list onto
the undo stack. -/
def ToDoHeap.snapshot_for_undo (s : ToDoHeap) : ToDoHeap :=
  { s with store := (deepcopy s.store s.tasks).1,
           undo_stack := (deepcopy s.store s.tasks).2 :: s.undo_stack }

/-- Method `add_task(text, deadline)` in the store model: snapshot, then
allocate the new task dict and append its reference; clear the redo
stack. -/
def ToDoHeap.add_task (s : ToDoHeap) (text : String) (deadline : Option Nat) :
    ToDoHeap :=
  if text = "" then s
  else
    let s1 := s.snapshot_for_undo
    { s1 with store := s1.store ++ [⟨text, deadline⟩],
              tasks := s1.tasks ++ [s1.store.length],
              redo_stack := [] }

/-- Method `remove_task(index)` in the store model. -/
def ToDoHeap.remove_task (s : ToDoHeap) (index : Int) : ToDoHeap :=
  if index < 0 ∨ (s.tasks.length : Int) ≤ index then s
  else
    let s1 := s.snapshot_for_undo
    { s1 with tasks := s1.tasks.eraseIdx index.toNat, redo_stack := [] }

/-- Method `clear()` in the store model. -/
def ToDoHeap.clear (s : ToDoHeap) : ToDoHeap :=
  if s.tasks = [] then s
  else
    let s1 := s.snapshot_for_undo
    { s1 with tasks := [], redo_stack := [] }

/-- Method `undo()` in the store model: push the deep copy of the live
list onto the redo stack and pop the undo stack into the live list (the
popped snapshot is installed by reference, as `self.tasks =
self._undo_stack.pop()` does). -/
def ToDoHeap.undo (s : ToDoHeap) : ToDoHeap :=
  match s.undo_stack with
  | [] => s
  | top :: rest =>
    { store := (deepcopy s.store s.tasks).1,
      tasks := top,
      undo_stack := rest,
      redo_stack := (deepcopy s.store s.tasks).2 :: s.redo_stack }

/-- Method `redo()` in the store model, symmetric to `undo`. -/
def ToDoHeap.redo (s : ToDoHeap) : ToDoHeap :=
  match s.redo_stack with
  | [] => s
  | top :: rest =>
    { store := (deepcopy s.store s.tasks).1,
      tasks := top,
      undo_stack := (deepcopy s.store s.tasks).2 :: s.undo_stack,
      redo_stack := rest }

/-- External in-place mutation of the `i`-th live task dict through its
reference (a caller statement such as `stack.tasks[i]["text"] = v`). -/
def ToDoHeap.mutateTask (s : ToDoHeap) (i : Nat) (v : App.Task) : ToDoHeap :=
  if i < s.tasks.length then
    { s with store := s.store.set (s.tasks.getD i 0) v }
  else s

/-- The task values a stored snapshot denotes, read from the store. -/
def snapValues (store : List App.Task) (refs : List Nat) : List App.Task :=
  refs.map (fun r => store.getD r defaultTask)

/-- One step of the store-model state machine: any method call, or an
external in-place mutation of a live task dict. -/
inductive Step : ToDoHeap → ToDoHeap → Prop
  | add (s : ToDoHeap) (text : String) (dl : Option Nat) :
      Step s (s.add_task text dl)
  | remove (s : ToDoHeap) (index : Int) : Step s (s.remove_task index)
  | clearStep (s : ToDoHeap) : Step s s.clear
  | undoStep (s : ToDoHeap) : Step s s.undo
  | redoStep (s : ToDoHeap) : Step s s.redo
  | mutate (s : ToDoHeap) (i : Nat) (v : App.Task) : Step s (s.mutateTask i v)

/-- States reachable from the initial state by method calls and external
task mutations. -/
inductive Reachable : ToDoHeap → Prop
  | init : Reachable ToDoHeap.init
  | step {s t : ToDoHeap} : Reachable s → Step s t → Reachable t

/-- Mirror image of a state, with the two stacks exchanged; `redo` is the
mirror image of `undo`. -/
def mirror (s : ToDoHeap) : ToDoHeap :=
  ⟨s.store, s.tasks, s.redo_stack, s.undo_stack⟩

/-- Two reference lists sharing no reference. -/
def disjointRefs (l1 l2 : List Nat) : Prop := ∀ r ∈ l1, r ∉ l2

/-- Separation invariant of the store model: every reference in the live
list or in a stored snapshot is a valid store address, and the live list
and all stored snapshots are pairwise disjoint reference lists. -/
def inv (s : ToDoHeap) : Prop :=
  (∀ l ∈ s.tasks :: (s.undo_stack ++ s.redo_stack), ∀ r ∈ l, r < s.store.length) ∧
  (s.tasks :: (s.undo_stack ++ s.redo_stack)).Pairwise disjointRefs

end Heap

/-- FIPS 180-4 test vector: the SHA-256 digest of the empty message. -/
theorem sha256_empty_vector :
    hash_password "" =
      "e3b0c44298fc1c149afbf4c8996fb92427ae41e4649b934ca495991b7852b855" := by
  decide

/-- FIPS 180-4 test vector: the SHA-256 digest of the ASCII message abc. -/
theorem sha256_abc_vector :
    hash_password "abc" =
      "ba7816bf8f01cfea414140de5dae2223b00361a396177a9cb410ff61f20015ad" := by
  decide

namespace App

/-- Scenario A of the spec, evaluated on the embedded code: adding a task
to the empty list, undoing and redoing behave as described. -/
theorem scenario_a :
    (ToDoStack.init.add_task "buy milk" none).tasks = [⟨"buy milk", none⟩] ∧
    (ToDoStack.init.add_task "buy milk" none).undo_stack ≠ [] ∧
    (ToDoStack.init.add_task "buy milk" none).redo_stack = [] ∧
    (ToDoStack.init.add_task "buy milk" none).undo.tasks = [] ∧
    (ToDoStack.init.add_task "buy milk" none).undo.redo_stack ≠ [] ∧
    (ToDoStack.init.add_task "buy milk" none).undo.redo.tasks =
      [⟨"buy milk", none⟩] := by
  decide

/-- Claim C1, counterexample: the guard in `add_task` is `if not text`,
which only catches the empty string. A text of three spaces is
whitespace-only, yet `add_task` appends it, changing `tasks()` length. -/
theorem add_task_whitespace_not_noop :
    (∀ c ∈ ("   " : String).data, c = ' ') ∧
    (ToDoStack.init.add_task "   " none).tasks.length ≠
      ToDoStack.init.tasks.length := by
  decide

/-- Claim C1, amended: `add_task` is a silent no-op (task list, undo stack
and redo stack unchanged) exactly when the text is the empty string; any
non-empty text, whitespace-only included, is appended after a snapshot. -/
theorem add_task_empty_guard (s : ToDoStack) (text : String) (dl : Option Nat) :
    (text = "" → s.add_task text dl = s) ∧
    (text ≠ "" →
      (s.add_task text dl).tasks = s.tasks ++ [⟨text, dl⟩] ∧
      (s.add_task text dl).undo_stack = s.tasks :: s.undo_stack ∧
      (s.add_task text dl).redo_stack = []) := by
  constructor
  · intro h
    simp [ToDoStack.add_task, h]
  · intro h
    simp [ToDoStack.add_task, ToDoStack.snapshot_for_undo, h]

/-- Witness for `add_task_empty_guard` at the empty string and at a
whitespace-only string on the initial state. -/
theorem add_task_empty_guard_witness :
    (ToDoStack.init.add_task "" none = ToDoStack.init) ∧
    (ToDoStack.init.add_task "   " none).tasks = [⟨"   ", none⟩] :=
  ⟨(add_task_empty_guard ToDoStack.init "" none).1 rfl,
   by
    have h := (add_task_empty_guard ToDoStack.init "   " none).2 (by decide)
    exact h.1⟩

/-- Claim C2, counterexample: on the reachable state obtained by
`add_task("a")` then `undo()`, the undo stack is empty and the redo stack
is not; a further `undo()` is a no-op while `redo()` moves the list
forward, so the pair does not restore the pre-undo task list. -/
theorem undo_redo_not_roundtrip :
    (ToDoStack.init.add_task "a" none).undo.undo.redo.tasks ≠
      (ToDoStack.init.add_task "a" none).undo.tasks := by
  decide

/-- Claim C2, amended: `undo()` immediately followed by `redo()` restores
the task list present before the `undo()`, provided the undo stack is
non-empty (the undo is effective) or the redo stack is empty; in the
remaining case the undo is a no-op and the redo moves the list to the
next stored state. -/
theorem undo_redo_roundtrip (s : ToDoStack)
    (h : s.undo_stack ≠ [] ∨ s.redo_stack = []) :
    s.undo.redo.tasks = s.tasks := by
  match hs : s.undo_stack with
  | top :: rest =>
    simp [ToDoStack.undo, hs, ToDoStack.redo]
  | [] =>
    have hr : s.redo_stack = [] := by
      cases h with
      | inl h1 => exact absurd hs h1
      | inr h2 => exact h2
    simp [ToDoStack.undo, hs, ToDoStack.redo, hr]

/-- Witness for `undo_redo_roundtrip` on a state with a non-empty undo
stack. -/
theorem undo_redo_roundtrip_witness :
    (ToDoStack.init.add_task "a" none).undo.redo.tasks =
      (ToDoStack.init.add_task "a" none).tasks :=
  undo_redo_roundtrip (ToDoStack.init.add_task "a" none) (Or.inl (by decide))

/-- Helper: `redo()` is a no-op when the redo stack is empty. -/
theorem redo_noop (s : ToDoStack) (h : s.redo_stack = []) : s.redo = s := by
  simp [ToDoStack.redo, h]

/-- Claim C3: every effective mutating call — `add_task` with non-empty
text, `remove_task` with an in-bounds index, `clear` on a non-empty list —
leaves the redo stack empty, so an immediately following `redo()` is a
no-op. The state `s` is arbitrary, so this holds in particular after any
number of `undo()` calls. -/
theorem mutation_clears_redo (s : ToDoStack) :
    (∀ text dl, text ≠ "" →
      (s.add_task text dl).redo_stack = [] ∧
      (s.add_task text dl).redo = s.add_task text dl) ∧
    (∀ index : Int, 0 ≤ index → index < (s.tasks.length : Int) →
      (s.remove_task index).redo_stack = [] ∧
      (s.remove_task index).redo = s.remove_task index) ∧
    (s.tasks ≠ [] →
      s.clear.redo_stack = [] ∧ s.clear.redo = s.clear) := by
  refine ⟨fun text dl h => ?_, fun index h0 hlen => ?_, fun h => ?_⟩
  · have hr : (s.add_task text dl).redo_stack = [] := by
      simp [ToDoStack.add_task, ToDoStack.snapshot_for_undo, h]
    exact ⟨hr, redo_noop _ hr⟩
  · have hc : ¬(index < 0 ∨ (s.tasks.length : Int) ≤ index) := by omega
    have hr : (s.remove_task index).redo_stack = [] := by
      simp [ToDoStack.remove_task, ToDoStack.snapshot_for_undo, hc]
    exact ⟨hr, redo_noop _ hr⟩
  · have hr : s.clear.redo_stack = [] := by
      simp [ToDoStack.clear, ToDoStack.snapshot_for_undo, h]
    exact ⟨hr, redo_noop _ hr⟩

/-- Witness for `mutation_clears_redo`: all three mutating calls on the
one-task state reached by `add_task("a")` after an undo/redo round trip
would leave the redo stack empty; here they are applied to the plain
one-task state. -/
theorem mutation_clears_redo_witness :
    (((ToDoStack.init.add_task "a" none).add_task "b" none).redo_stack = [] ∧
      ((ToDoStack.init.add_task "a" none).add_task "b" none).redo =
        (ToDoStack.init.add_task "a" none).add_task "b" none) ∧
    (((ToDoStack.init.add_task "a" none).remove_task 0).redo_stack = [] ∧
      ((ToDoStack.init.add_task "a" none).remove_task 0).redo =
        (ToDoStack.init.add_task "a" none).remove_task 0) ∧
    ((ToDoStack.init.add_task "a" none).clear.redo_stack = [] ∧
      (ToDoStack.init.add_task "a" none).clear.redo =
        (ToDoStack.init.add_task "a" none).clear) :=
  ⟨(mutation_clears_redo (ToDoStack.init.add_task "a" none)).1 "b" none
    (by decide),
   (mutation_clears_redo (ToDoStack.init.add_task "a" none)).2.1 0
    (by decide) (by decide),
   (mutation_clears_redo (ToDoStack.init.add_task "a" none)).2.2
    (by decide)⟩

/-- Claim C5: `undo()` and `redo()` conserve snapshots. Both leave the sum
of the two stack lengths unchanged, and on a non-empty stack each pops
exactly its top into the task list while pushing the current task list
onto the opposite stack, discarding nothing. -/
theorem undo_redo_conserve_snapshots (s : ToDoStack) :
    (s.undo.undo_stack.length + s.undo.redo_stack.length =
      s.undo_stack.length + s.redo_stack.length) ∧
    (s.redo.undo_stack.length + s.redo.redo_stack.length =
      s.undo_stack.length + s.redo_stack.length) ∧
    (∀ top rest, s.undo_stack = top :: rest →
      s.undo.tasks = top ∧ s.undo.undo_stack = rest ∧
      s.undo.redo_stack = s.tasks :: s.redo_stack) ∧
    (∀ top rest, s.redo_stack = top :: rest →
      s.redo.tasks = top ∧ s.redo.undo_stack = s.tasks :: s.undo_stack ∧
      s.redo.redo_stack = rest) := by
  refine ⟨?_, ?_, fun top rest h => ?_, fun top rest h => ?_⟩
  · match hs : s.undo_stack with
    | [] => simp [ToDoStack.undo, hs]
    | top :: rest => simp [ToDoStack.undo, hs]; omega
  · match hs : s.redo_stack with
    | [] => simp [ToDoStack.redo, hs]
    | top :: rest => simp [ToDoStack.redo, hs]; omega
  · simp [ToDoStack.undo, h]
  · simp [ToDoStack.redo, h]

/-- Witness for `undo_redo_conserve_snapshots` on a state with both
stacks non-empty (two adds followed by one undo). -/
theorem undo_redo_conserve_snapshots_witness :
    (((ToDoStack.init.add_task "a" none).add_task "b" none).undo.undo.undo_stack.length +
      ((ToDoStack.init.add_task "a" none).add_task "b" none).undo.undo.redo_stack.length =
      ((ToDoStack.init.add_task "a" none).add_task "b" none).undo.undo_stack.length +
      ((ToDoStack.init.add_task "a" none).add_task "b" none).undo.redo_stack.length) ∧
    (((ToDoStack.init.add_task "a" none).add_task "b" none).undo.undo.tasks = [] ∧
      ((ToDoStack.init.add_task "a" none).add_task "b" none).undo.undo.undo_stack = [] ∧
      ((ToDoStack.init.add_task "a" none).add_task "b" none).undo.undo.redo_stack =
        [⟨"a", none⟩] ::
          ((ToDoStack.init.add_task "a" none).add_task "b" none).undo.redo_stack) ∧
    (((ToDoStack.init.add_task "a" none).add_task "b" none).undo.redo.tasks =
        [⟨"a", none⟩, ⟨"b", none⟩] ∧
      ((ToDoStack.init.add_task "a" none).add_task "b" none).undo.redo.undo_stack =
        [⟨"a", none⟩] ::
          ((ToDoStack.init.add_task "a" none).add_task "b" none).undo.undo_stack ∧
      ((ToDoStack.init.add_task "a" none).add_task "b" none).undo.redo.redo_stack = []) :=
  ⟨(undo_redo_conserve_snapshots
      ((ToDoStack.init.add_task "a" none).add_task "b" none).undo).1,
   (undo_redo_conserve_snapshots
      ((ToDoStack.init.add_task "a" none).add_task "b" none).undo).2.2.1
      [] [] (by decide),
   (undo_redo_conserve_snapshots
      ((ToDoStack.init.add_task "a" none).add_task "b" none).undo).2.2.2
      [⟨"a", none⟩, ⟨"b", none⟩] [] (by decide)⟩

/-- Claim C9: `remove_task` is a total no-op for every index outside
`[0, len)` — in particular `-1` and `len` — and for an in-bounds index it
removes exactly the element at that index, shifting the later elements
one position left (so the length drops by one). -/
theorem remove_task_spec (s : ToDoStack) :
    (∀ index : Int, index < 0 ∨ (s.tasks.length : Int) ≤ index →
      s.remove_task index = s) ∧
    (s.remove_task (-1) = s) ∧
    (s.remove_task (s.tasks.length : Int) = s) ∧
    (∀ index : Int, 0 ≤ index → index < (s.tasks.length : Int) →
      (s.remove_task index).tasks =
        s.tasks.take index.toNat ++ s.tasks.drop (index.toNat + 1) ∧
      (s.remove_task index).tasks.length + 1 = s.tasks.length) := by
  have hnoop : ∀ index : Int, index < 0 ∨ (s.tasks.length : Int) ≤ index →
      s.remove_task index = s := by
    intro index h
    simp [ToDoStack.remove_task, h]
  refine ⟨hnoop, hnoop _ (Or.inl (by omega)), hnoop _ (Or.inr (by omega)),
    fun index h0 hlen => ?_⟩
  have hc : ¬(index < 0 ∨ (s.tasks.length : Int) ≤ index) := by omega
  have hlt : index.toNat < s.tasks.length := by omega
  constructor
  · simp [ToDoStack.remove_task, hc, ToDoStack.snapshot_for_undo,
      List.eraseIdx_eq_take_drop_succ]
  · simp [ToDoStack.remove_task, hc, ToDoStack.snapshot_for_undo]
    rw [List.length_eraseIdx_add_one hlt]

/-- Witness for `remove_task_spec` on the two-task state: `remove_task(-1)`
and `remove_task(2)` are no-ops, `remove_task(0)` drops the first task. -/
theorem remove_task_spec_witness :
    (((ToDoStack.init.add_task "a" none).add_task "b" none).remove_task (-1) =
      (ToDoStack.init.add_task "a" none).add_task "b" none) ∧
    (((ToDoStack.init.add_task "a" none).add_task "b" none).remove_task 2 =
      (ToDoStack.init.add_task "a" none).add_task "b" none) ∧
    ((((ToDoStack.init.add_task "a" none).add_task "b" none).remove_task 0).tasks =
      [⟨"b", none⟩]) :=
  ⟨(remove_task_spec ((ToDoStack.init.add_task "a" none).add_task "b" none)).2.1,
   (remove_task_spec ((ToDoStack.init.add_task "a" none).add_task "b" none)).1 2
     (by decide),
   by
    have h := (remove_task_spec
      ((ToDoStack.init.add_task "a" none).add_task "b" none)).2.2.2 0
      (by decide) (by decide)
    simpa using h.1⟩

/-- Helper: a successful `signup` returns the input state with exactly
`hash_password(password)` stored under the username. -/
theorem signup_ok_shape (st : SessionState) (u p : String)
    (st2 : SessionState) (h : signup st u p = (.ok, st2)) :
    st2 = { st with users := (u, hash_password p) :: st.users } := by
  by_cases h1 : u = "" ∨ p = ""
  · rw [signup, if_pos h1] at h
    exact absurd (congrArg Prod.fst h) (by simp)
  · by_cases h2 : (st.users.lookup u).isSome
    · rw [signup, if_neg h1, if_pos h2] at h
      exact absurd (congrArg Prod.fst h) (by simp)
    · rw [signup, if_neg h1, if_neg h2] at h
      exact (congrArg Prod.snd h).symm

/-- Claim C6, counterexample: `signup` does not trim. With a
whitespace-only username it succeeds and stores the account instead of
failing validation. -/
theorem signup_whitespace_username_accepted :
    (∀ c ∈ ("   " : String).data, c = ' ') ∧
    (signup SessionState.init "   " "pw").1 = SignupResult.ok ∧
    (signup SessionState.init "   " "pw").2 ≠ SessionState.init := by
  decide

/-- Claim C6, amended: `signup` fails with the validation warning when the
username or the password is the empty string (no trimming is applied),
fails with the duplicate warning when the username is already registered,
and otherwise stores `hash_password(password)` keyed by the username and
succeeds; the failing branches leave the state unchanged. -/
theorem signup_spec (st : SessionState) (u p : String) :
    (u = "" ∨ p = "" →
      (signup st u p).1 = .validationError ∧ (signup st u p).2 = st) ∧
    (u ≠ "" → p ≠ "" → ∀ d, st.users.lookup u = some d →
      (signup st u p).1 = .duplicateUserError ∧ (signup st u p).2 = st) ∧
    (u ≠ "" → p ≠ "" → st.users.lookup u = none →
      (signup st u p).1 = .ok ∧
      (signup st u p).2.users = (u, hash_password p) :: st.users ∧
      (signup st u p).2.current_user = st.current_user) := by
  refine ⟨fun h => ?_, fun hu hp d hd => ?_, fun hu hp hn => ?_⟩
  · rw [signup, if_pos h]
    exact ⟨rfl, rfl⟩
  · rw [signup, if_neg (by tauto), if_pos (by simp [hd])]
    exact ⟨rfl, rfl⟩
  · rw [signup, if_neg (by tauto), if_neg (by simp [hn])]
    exact ⟨rfl, rfl, rfl⟩

/-- Witness for `signup_spec`: validation failure on an empty username,
duplicate failure on a re-registration, success on a fresh username. -/
theorem signup_spec_witness :
    ((signup SessionState.init "" "pw").1 = .validationError ∧
      (signup SessionState.init "" "pw").2 = SessionState.init) ∧
    ((signup (signup SessionState.init "alice" "pw1").2 "alice" "pw2").1 =
        .duplicateUserError ∧
      (signup (signup SessionState.init "alice" "pw1").2 "alice" "pw2").2 =
        (signup SessionState.init "alice" "pw1").2) ∧
    ((signup SessionState.init "alice" "pw1").1 = .ok ∧
      (signup SessionState.init "alice" "pw1").2.users =
        [("alice", hash_password "pw1")] ∧
      (signup SessionState.init "alice" "pw1").2.current_user = none) :=
  ⟨(signup_spec SessionState.init "" "pw").1 (Or.inl rfl),
   (signup_spec (signup SessionState.init "alice" "pw1").2 "alice" "pw2").2.1
     (by decide) (by decide) (hash_password "pw1") (by rfl),
   by
    have h := (signup_spec SessionState.init "alice" "pw1").2.2
      (by decide) (by decide) rfl
    exact ⟨h.1, by rw [h.2.1]; rfl, h.2.2⟩⟩

/-- Claim C7: `login` fails with the unknown-user error when the username
is not registered, fails with the wrong-password error when the stored
digest differs from `hash_password(password)`, and succeeds otherwise;
after a successful `signup(u, p)`, `login(u, p)` succeeds and
`login(u, p2)` fails with the wrong-password error whenever
`hash_password(p2)` differs from the stored digest. -/
theorem login_classification (st : SessionState) (u p : String) :
    (st.users.lookup u = none →
      (login st u p).1 = .unknownUserError ∧ (login st u p).2 = st) ∧
    (∀ d, st.users.lookup u = some d → d ≠ hash_password p →
      (login st u p).1 = .invalidCredentialsError ∧ (login st u p).2 = st) ∧
    (∀ d, st.users.lookup u = some d → d = hash_password p →
      (login st u p).1 = .ok) ∧
    (∀ st2, signup st u p = (.ok, st2) →
      (login st2 u p).1 = .ok ∧
      (∀ p2, hash_password p2 ≠ hash_password p →
        (login st2 u p2).1 = .invalidCredentialsError)) := by
  refine ⟨fun hn => ?_, fun d hd hne => ?_, fun d hd heq => ?_,
    fun st2 hsign => ?_⟩
  · rw [login, hn]
    exact ⟨rfl, rfl⟩
  · rw [login, hd]
    simp [hne]
  · rw [login, hd]
    simp [heq]
  · have hshape := signup_ok_shape st u p st2 hsign
    have hlook : st2.users.lookup u = some (hash_password p) := by
      rw [hshape]
      simp [List.lookup]
    constructor
    · rw [login, hlook]
      simp
    · intro p2 hne
      rw [login, hlook]
      simp [hne.symm]

/-- Witness for `login_classification`, following Scenario B of the spec:
after registering alice with password pw1, logging in with pw1 succeeds,
logging in with pw2 fails with the wrong-password error, and logging in
as an unknown user fails with the unknown-user error. -/
theorem login_classification_witness :
    (login (signup SessionState.init "alice" "pw1").2 "alice" "pw1").1 = .ok ∧
    (login (signup SessionState.init "alice" "pw1").2 "alice" "pw2").1 =
      .invalidCredentialsError ∧
    (login SessionState.init "bob" "pw").1 = .unknownUserError :=
  ⟨((login_classification SessionState.init "alice" "pw1").2.2.2
      (signup SessionState.init "alice" "pw1").2 rfl).1,
   ((login_classification SessionState.init "alice" "pw1").2.2.2
      (signup SessionState.init "alice" "pw1").2 rfl).2 "pw2" (by decide),
   ((login_classification SessionState.init "bob" "pw").1 rfl).1⟩

/-- Claim C8: `login` is atomic with respect to the session identity: a
failing call (unknown user or wrong password) leaves `current_user`
unchanged — indeed the whole state unchanged — and a successful call sets
`current_user` to exactly the given username. -/
theorem login_session_atomic (st : SessionState) (u p : String) :
    ((login st u p).1 ≠ .ok → (login st u p).2 = st) ∧
    ((login st u p).1 = .ok → (login st u p).2.current_user = some u) := by
  rw [login]
  cases hl : st.users.lookup u with
  | none => exact ⟨fun _ => rfl, fun h => absurd h (by simp)⟩
  | some d =>
    by_cases hd : d ≠ hash_password p <;> simp [hd]

/-- Witness for `login_session_atomic`: with bob logged in, a failed login
attempt for alice keeps the session on bob, and a successful one moves it
to alice. -/
theorem login_session_atomic_witness :
    (login ⟨[("alice", hash_password "pw1")], some "bob"⟩ "alice" "bad").2 =
      ⟨[("alice", hash_password "pw1")], some "bob"⟩ ∧
    (login ⟨[("alice", hash_password "pw1")], some "bob"⟩ "alice" "pw1").2.current_user =
      some "alice" :=
  ⟨(login_session_atomic ⟨[("alice", hash_password "pw1")], some "bob"⟩
      "alice" "bad").1 (by decide),
   (login_session_atomic ⟨[("alice", hash_password "pw1")], some "bob"⟩
      "alice" "pw1").2 (by decide)⟩

/-- Claim C10: authentication depends on the password only through its
SHA-256 digest: two passwords with equal digests make `login` return the
same result and post-state, and a successful `signup` stores exactly the
digest — the plaintext password appears nowhere in the stored state. -/
theorem login_depends_only_on_digest (st : SessionState) (u p1 p2 : String) :
    (hash_password p1 = hash_password p2 →
      login st u p1 = login st u p2) ∧
    (∀ p st2, signup st u p = (.ok, st2) →
      st2.users = (u, hash_password p) :: st.users) := by
  constructor
  · intro h
    rw [login, login, h]
  · intro p st2 hsign
    rw [signup_ok_shape st u p st2 hsign]

/-- Witness for `login_depends_only_on_digest` at equal passwords (hence
equal digests) and at a concrete successful signup. -/
theorem login_depends_only_on_digest_witness :
    (login SessionState.init "alice" "pw" = login SessionState.init "alice" "pw") ∧
    (signup SessionState.init "alice" "pw1").2.users =
      ("alice", hash_password "pw1") :: SessionState.init.users :=
  ⟨(login_depends_only_on_digest SessionState.init "alice" "pw" "pw").1 rfl,
   (login_depends_only_on_digest SessionState.init "alice" "pw" "pw").2 "pw1"
     (signup SessionState.init "alice" "pw1").2 (by decide)⟩

end App

namespace Heap

/-- Helper: reference-list disjointness is symmetric. -/
theorem disjointRefs_symm {l1 l2 : List Nat} (h : disjointRefs l1 l2) :
    disjointRefs l2 l1 :=
  fun r hr hmem => h r hmem hr

/-- Helper: the separation invariant holds in the initial state. -/
theorem inv_init : inv ToDoHeap.init := by
  constructor <;> simp [inv, ToDoHeap.init]

/-- Helper: length of the store extended by `deepcopy`. -/
theorem deepcopy_store_length (store : List App.Task) (refs : List Nat) :
    (deepcopy store refs).1.length = store.length + refs.length := by
  simp [deepcopy]

/-- Helper: the references returned by `deepcopy` are exactly the freshly
allocated cells, beyond the old store. -/
theorem mem_deepcopy_refs {store : List App.Task} {refs : List Nat} {r : Nat}
    (h : r ∈ (deepcopy store refs).2) :
    store.length ≤ r ∧ r < store.length + refs.length := by
  simpa [deepcopy] using h

/-- Helper: any mutating method (snapshot, replace the task list, extend
the store, clear the redo stack) preserves the separation invariant,
provided every new live reference is either an old live reference or one
of the freshly allocated cells beyond the snapshot copies. -/
theorem inv_push (s : ToDoHeap) (newTasks : List Nat) (ext : List App.Task)
    (hinv : inv s)
    (hsub : ∀ r ∈ newTasks, r ∈ s.tasks ∨
      (s.store.length + s.tasks.length ≤ r ∧
       r < s.store.length + s.tasks.length + ext.length)) :
    inv { store := (deepcopy s.store s.tasks).1 ++ ext,
          tasks := newTasks,
          undo_stack := (deepcopy s.store s.tasks).2 :: s.undo_stack,
          redo_stack := [] } := by
  obtain ⟨hval, hpw⟩ := hinv
  have htaskslt : ∀ r ∈ s.tasks, r < s.store.length :=
    hval s.tasks (List.mem_cons_self _ _)
  have hstacklt : ∀ sn ∈ s.undo_stack ++ s.redo_stack, ∀ r ∈ sn,
      r < s.store.length :=
    fun sn hsn => hval sn (List.mem_cons_of_mem _ hsn)
  have htasksdisj : ∀ sn ∈ s.undo_stack ++ s.redo_stack,
      disjointRefs s.tasks sn :=
    (List.pairwise_cons.1 hpw).1
  have hundopw : s.undo_stack.Pairwise disjointRefs :=
    (List.pairwise_append.1 (List.pairwise_cons.1 hpw).2).1
  constructor
  · intro l hl r hr
    rw [List.length_append, deepcopy_store_length]
    rcases List.mem_cons.1 hl with rfl | hl2
    · rcases hsub r hr with hmem | ⟨_, hub⟩
      · have := htaskslt r hmem
        omega
      · omega
    · simp only [List.append_nil, List.mem_cons] at hl2
      rcases hl2 with rfl | hl3
      · have := mem_deepcopy_refs hr
        omega
      · have : r < s.store.length :=
          hstacklt l (List.mem_append_left _ hl3) r hr
        omega
  · simp only [List.append_nil]
    refine List.pairwise_cons.2 ⟨?_, List.pairwise_cons.2 ⟨?_, hundopw⟩⟩
    · intro l hl r hr hcontra
      rcases List.mem_cons.1 hl with rfl | hl2
      · have hb := mem_deepcopy_refs hcontra
        rcases hsub r hr with hmem | ⟨hlb, _⟩
        · have := htaskslt r hmem
          omega
        · omega
      · rcases hsub r hr with hmem | ⟨hlb, _⟩
        · exact htasksdisj l (List.mem_append_left _ hl2) r hmem hcontra
        · have := hstacklt l (List.mem_append_left _ hl2) r hcontra
          omega
    · intro l hl r hr hcontra
      have hb := mem_deepcopy_refs hr
      have := hstacklt l (List.mem_append_left _ hl) r hcontra
      omega

/-- Helper: `undo` preserves the separation invariant. -/
theorem inv_undo (s : ToDoHeap) (hinv : inv s) : inv s.undo := by
  match hs : s.undo_stack with
  | [] =>
    rw [ToDoHeap.undo, hs]
    exact hinv
  | snap0 :: rest =>
    rw [ToDoHeap.undo, hs]
    obtain ⟨hval, hpw⟩ := hinv
    rw [hs] at hval hpw
    have htaskslt : ∀ r ∈ s.tasks, r < s.store.length :=
      hval s.tasks (List.mem_cons_self _ _)
    have hsnap0lt : ∀ r ∈ snap0, r < s.store.length :=
      hval snap0 (List.mem_cons_of_mem _ (List.mem_append_left _
        (List.mem_cons_self _ _)))
    have hstacklt : ∀ sn ∈ rest ++ s.redo_stack, ∀ r ∈ sn,
        r < s.store.length := by
      intro sn hsn r hr
      refine hval sn (List.mem_cons_of_mem _ ?_) r hr
      rcases List.mem_append.1 hsn with h1 | h2
      · exact List.mem_append_left _ (List.mem_cons_of_mem _ h1)
      · exact List.mem_append_right _ h2
    have hstackpw : ((snap0 :: rest) ++ s.redo_stack).Pairwise disjointRefs :=
      (List.pairwise_cons.1 hpw).2
    rw [List.cons_append, List.pairwise_cons] at hstackpw
    constructor
    · intro l hl r hr
      rw [deepcopy_store_length]
      rcases List.mem_cons.1 hl with rfl | hl2
      · have := hsnap0lt r hr
        omega
      · rcases List.mem_append.1 hl2 with h1 | h2
        · have := hstacklt l (List.mem_append_left _ h1) r hr
          omega
        · rcases List.mem_cons.1 h2 with rfl | h3
          · have := mem_deepcopy_refs hr
            omega
          · have := hstacklt l (List.mem_append_right _ h3) r hr
            omega
    · refine List.pairwise_cons.2 ⟨?_, ?_⟩
      · intro l hl r hr hcontra
        rcases List.mem_append.1 hl with h1 | h2
        · exact hstackpw.1 l (List.mem_append_left _ h1) r hr hcontra
        · rcases List.mem_cons.1 h2 with rfl | h3
          · have := mem_deepcopy_refs hcontra
            have := hsnap0lt r hr
            omega
          · exact hstackpw.1 l (List.mem_append_right _ h3) r hr hcontra
      · rw [List.pairwise_append] at hstackpw ⊢
        refine ⟨hstackpw.2.1, List.pairwise_cons.2 ⟨?_, hstackpw.2.2.1⟩, ?_⟩
        · intro l hl r hr hcontra
          have := mem_deepcopy_refs hr
          have := hstacklt l (List.mem_append_right _ hl) r hcontra
          omega
        · intro a ha b hb
          rcases List.mem_cons.1 hb with rfl | hb2
          · intro r hr hcontra
            have := mem_deepcopy_refs hcontra
            have := hstacklt a (List.mem_append_left _ ha) r hr
            omega
          · exact hstackpw.2.2.2 a ha b hb2

/-- Helper: exchanging the two stacks preserves the separation invariant. -/
theorem inv_mirror (s : ToDoHeap) (hinv : inv s) : inv (mirror s) := by
  obtain ⟨hval, hpw⟩ := hinv
  constructor
  · intro l hl r hr
    refine hval l ?_ r hr
    rcases List.mem_cons.1 hl with rfl | h2
    · exact List.mem_cons_self _ _
    · refine List.mem_cons_of_mem _ ?_
      rw [List.mem_append] at h2 ⊢
      tauto
  · rw [List.pairwise_cons] at hpw ⊢
    refine ⟨?_, ?_⟩
    · intro l hl
      refine hpw.1 l ?_
      rw [List.mem_append] at hl ⊢
      tauto
    · exact (List.pairwise_append_comm fun h => disjointRefs_symm h).2 hpw.2

/-- Helper: `redo` is the mirror image of `undo`. -/
theorem redo_eq_mirror_undo (s : ToDoHeap) :
    s.redo = mirror (mirror s).undo := by
  obtain ⟨store, tasks, undo, redo⟩ := s
  cases redo with
  | nil => rfl
  | cons top rest => rfl

/-- Helper: `redo` preserves the separation invariant. -/
theorem inv_redo (s : ToDoHeap) (hinv : inv s) : inv s.redo := by
  rw [redo_eq_mirror_undo]
  exact inv_mirror _ (inv_undo _ (inv_mirror s hinv))

/-- Helper: an external in-place task mutation preserves the separation
invariant (it changes no reference list and no store length). -/
theorem inv_mut (s : ToDoHeap) (i : Nat) (v : App.Task) (hinv : inv s) :
    inv (s.mutateTask i v) := by
  rw [ToDoHeap.mutateTask]
  split
  · obtain ⟨hval, hpw⟩ := hinv
    exact ⟨by simpa [List.length_set] using hval, hpw⟩
  · exact hinv

/-- Helper: every step of the store-model state machine preserves the
separation invariant. -/
theorem inv_step {s t : ToDoHeap} (hinv : inv s) (hstep : Step s t) :
    inv t := by
  cases hstep with
  | add text dl =>
    rw [ToDoHeap.add_task]
    split
    · exact hinv
    · have hdc : (deepcopy s.store s.tasks).1.length =
          s.store.length + s.tasks.length := deepcopy_store_length _ _
      refine inv_push s (s.tasks ++ [(deepcopy s.store s.tasks).1.length])
        [⟨text, dl⟩] hinv ?_
      intro r hr
      rcases List.mem_append.1 hr with h1 | h2
      · exact Or.inl h1
      · right
        simp only [List.mem_singleton] at h2
        subst h2
        rw [hdc]
        simp
  | remove index =>
    rw [ToDoHeap.remove_task]
    split
    · exact hinv
    · have h := inv_push s (s.tasks.eraseIdx index.toNat) [] hinv
        (fun r hr => Or.inl (List.mem_of_mem_eraseIdx hr))
      simpa using h
  | clearStep =>
    rw [ToDoHeap.clear]
    split
    · exact hinv
    · have h := inv_push s [] [] hinv (by simp)
      simpa using h
  | undoStep => exact inv_undo s hinv
  | redoStep => exact inv_redo s hinv
  | mutate i v => exact inv_mut s i v hinv

/-- Helper: every reachable state satisfies the separation invariant. -/
theorem reachable_inv {s : ToDoHeap} (h : Reachable s) : inv s := by
  induction h with
  | init => exact inv_init
  | step _ hstep ih => exact inv_step ih hstep

/-- Helper: under the separation invariant, writing through a live task
reference changes the value of no stored snapshot. -/
theorem mut_keeps_snapValues (s : ToDoHeap) (hinv : inv s) :
    ∀ sn ∈ s.undo_stack ++ s.redo_stack, ∀ i v,
      snapValues (s.mutateTask i v).store sn = snapValues s.store sn := by
  intro sn hsn i v
  rw [ToDoHeap.mutateTask]
  split
  case isTrue hi =>
    have hget : s.tasks.getD i 0 = s.tasks[i] := by
      simp [List.getElem?_eq_getElem hi]
    have ht : s.tasks.getD i 0 ∈ s.tasks := by
      rw [hget]
      exact List.getElem_mem hi
    have htn : s.tasks.getD i 0 ∉ sn :=
      (List.pairwise_cons.1 hinv.2).1 sn hsn _ ht
    refine List.map_congr_left ?_
    intro r hr
    have hne : s.tasks.getD i 0 ≠ r := fun he => htn (he ▸ hr)
    have hne2 : s.tasks[i]?.getD 0 ≠ r := by
      rw [← List.getD_eq_getElem?_getD]
      exact hne
    simp [List.getElem?_set_ne hne2]
  case isFalse => rfl

/-- Claim C4: snapshots stored on the undo and redo stacks are deep
copies. In every reachable state of the store model (method calls and
external in-place task mutations interleaved arbitrarily, so in
particular after restores), mutating a task object of the live list in
place alters the task values of no stored snapshot. -/
theorem snapshots_are_deep_copies (s : ToDoHeap) (h : Reachable s) :
    ∀ sn ∈ s.undo_stack ++ s.redo_stack, ∀ i v,
      snapValues (s.mutateTask i v).store sn = snapValues s.store sn :=
  mut_keeps_snapValues s (reachable_inv h)

/-- Witness for `snapshots_are_deep_copies` on the state reached by
`add_task("a")` then `add_task("b")`: overwriting the first live task in
place leaves the snapshot taken by the second add unchanged — it still
holds the task a. -/
theorem snapshots_are_deep_copies_witness :
    snapValues (((ToDoHeap.init.add_task "a" none).add_task "b"
        none).mutateTask 0 ⟨"x", none⟩).store [1] =
      snapValues ((ToDoHeap.init.add_task "a" none).add_task "b"
        none).store [1] ∧
    snapValues ((ToDoHeap.init.add_task "a" none).add_task "b"
        none).store [1] = [⟨"a", none⟩] :=
  ⟨snapshots_are_deep_copies
      ((ToDoHeap.init.add_task "a" none).add_task "b" none)
      (Reachable.step
        (Reachable.step Reachable.init (Step.add ToDoHeap.init "a" none))
        (Step.add (ToDoHeap.init.add_task "a" none) "b" none))
      [1] (by decide) 0 ⟨"x", none⟩,
   by decide⟩

end Heap
